import Mathlib

/-!
Verification of the c1v identity core (consent contracts, scoped PINs,
hash-chained audit logs) against its natural-language specification.

The Python services are shallowly embedded: machine integers and datetimes
become `Nat` (instants) with explicit arithmetic, SQLAlchemy stores become
lists of records with explicit state passing, HTTP exceptions become
`Except`-style error values, and the SHA-256 / HMAC-SHA256 primitives used
by `crypto_service.py`, `audit_service.py` and `pins_service.py` are
implemented executably so that concrete runs evaluate inside the kernel.
-/

set_option maxRecDepth 100000

namespace C1v

/-! ## SHA-256 (hashlib.sha256), executable

Bytes are naturals < 256, 32-bit words are naturals < 2^32 with explicit
truncation. -/

/-- Truncate to a 32-bit word. -/
def m32 (n : Nat) : Nat := n % 4294967296

/-- 32-bit right rotation. -/
def rotr (n x : Nat) : Nat := m32 ((x >>> n) ||| (x <<< (32 - n)))

def bigSigma0 (x : Nat) : Nat := (rotr 2 x) ^^^ (rotr 13 x) ^^^ (rotr 22 x)
def bigSigma1 (x : Nat) : Nat := (rotr 6 x) ^^^ (rotr 11 x) ^^^ (rotr 25 x)
def smallSigma0 (x : Nat) : Nat := (rotr 7 x) ^^^ (rotr 18 x) ^^^ (x >>> 3)
def smallSigma1 (x : Nat) : Nat := (rotr 17 x) ^^^ (rotr 19 x) ^^^ (x >>> 10)

def ch (x y z : Nat) : Nat := (x &&& y) ^^^ ((x ^^^ 4294967295) &&& z)
def maj (x y z : Nat) : Nat := (x &&& y) ^^^ (x &&& z) ^^^ (y &&& z)

/-- The SHA-256 round constants. -/
def K : List Nat := [
  1116352408, 1899447441, 3049323471, 3921009573, 961987163, 1508970993,
  2453635748, 2870763221, 3624381080, 310598401, 607225278, 1426881987,
  1925078388, 2162078206, 2614888103, 3248222580, 3835390401, 4022224774,
  264347078, 604807628, 770255983, 1249150122, 1555081692, 1996064986,
  2554220882, 2821834349, 2952996808, 3210313671, 3336571891, 3584528711,
  113926993, 338241895, 666307205, 773529912, 1294757372, 1396182291,
  1695183700, 1986661051, 2177026350, 2456956037, 2730485921, 2820302411,
  3259730800, 3345764771, 3516065817, 3600352804, 4094571909, 275423344,
  430227734, 506948616, 659060556, 883997877, 958139571, 1322822218,
  1537002063, 1747873779, 1955562222, 2024104815, 2227730452, 2361852424,
  2428436474, 2756734187, 3204031479, 3329325298]

/-- The SHA-256 initial hash state. -/
def initH : List Nat := [
  1779033703, 3144134277, 1013904242, 2773480762, 1359893119,
  2600822924, 528734635, 1541459225]

/-- Extend the (reversed) message schedule by `n` further words. -/
def schedRec : Nat → List Nat → List Nat
  | 0, acc => acc
  | Nat.succ n, acc =>
    let w := m32 (smallSigma1 (acc.getD 1 0) + acc.getD 6 0 +
      smallSigma0 (acc.getD 14 0) + acc.getD 15 0)
    schedRec n (w :: acc)

/-- The 64-word message schedule of a 16-word block. -/
def schedule (block : List Nat) : List Nat :=
  (schedRec 48 block.reverse).reverse

/-- One SHA-256 compression round; the state is `[a,b,c,d,e,f,g,h]`. -/
def shaRound (st : List Nat) (kw : Nat × Nat) : List Nat :=
  match st with
  | [a, b, c, d, e, f, g, h] =>
    let t1 := m32 (h + bigSigma1 e + ch e f g + kw.1 + kw.2)
    let t2 := m32 (bigSigma0 a + maj a b c)
    [m32 (t1 + t2), a, b, c, m32 (d + t1), e, f, g]
  | other => other

/-- Compress one 16-word block into the running hash state. -/
def compress (h : List Nat) (block : List Nat) : List Nat :=
  let final := (K.zip (schedule block)).foldl shaRound h
  (h.zip final).map (fun p => m32 (p.1 + p.2))

/-- Group bytes into big-endian 32-bit words. -/
def toWords : List Nat → List Nat
  | b0 :: b1 :: b2 :: b3 :: rest => (((b0 * 256 + b1) * 256 + b2) * 256 + b3) :: toWords rest
  | _ => []

/-- SHA-256 padding: `0x80`, zeros, then the 64-bit big-endian bit length. -/
def shaPad (msg : List Nat) : List Nat :=
  let len := msg.length
  let bitLen := len * 8
  let zeros := (55 + 64 - len % 64) % 64
  msg ++ [0x80] ++ List.replicate zeros 0 ++
    [(bitLen >>> 56) % 256, (bitLen >>> 48) % 256, (bitLen >>> 40) % 256, (bitLen >>> 32) % 256,
     (bitLen >>> 24) % 256, (bitLen >>> 16) % 256, (bitLen >>> 8) % 256, bitLen % 256]

/-- Split a word list into 16-word blocks (structural, so it reduces in the kernel). -/
def chunksW : List Nat → List (List Nat)
  | w0 :: w1 :: w2 :: w3 :: w4 :: w5 :: w6 :: w7 ::
    w8 :: w9 :: w10 :: w11 :: w12 :: w13 :: w14 :: w15 :: rest =>
    [w0, w1, w2, w3, w4, w5, w6, w7, w8, w9, w10, w11, w12, w13, w14, w15] :: chunksW rest
  | _ => []

/-- SHA-256 of a byte list, as eight 32-bit words. -/
def sha256Words (msg : List Nat) : List Nat :=
  (chunksW (toWords (shaPad msg))).foldl compress initH

/-- SHA-256 of a byte list, as 32 bytes. -/
def sha256Bytes (msg : List Nat) : List Nat :=
  (sha256Words msg).flatMap fun w => [(w >>> 24) % 256, (w >>> 16) % 256, (w >>> 8) % 256, w % 256]

/-- Lowercase hexadecimal digit. -/
def hexDigit (n : Nat) : Char :=
  if n < 10 then Char.ofNat (48 + n) else Char.ofNat (87 + n)

/-- A 32-bit word as eight lowercase hex characters. -/
def word8Hex (w : Nat) : List Char :=
  [hexDigit ((w >>> 28) % 16), hexDigit ((w >>> 24) % 16), hexDigit ((w >>> 20) % 16),
   hexDigit ((w >>> 16) % 16), hexDigit ((w >>> 12) % 16), hexDigit ((w >>> 8) % 16),
   hexDigit ((w >>> 4) % 16), hexDigit (w % 16)]

/-- `hashlib.sha256(msg).hexdigest()` for a byte list. -/
def sha256hexBytes (msg : List Nat) : String :=
  String.mk ((sha256Words msg).foldr (fun w acc => word8Hex w ++ acc) [])

/-- UTF-8 encoding of one character. -/
def utf8Char (c : Char) : List Nat :=
  let n := c.toNat
  if n < 128 then [n]
  else if n < 2048 then [192 + n / 64, 128 + n % 64]
  else if n < 65536 then [224 + n / 4096, 128 + (n / 64) % 64, 128 + n % 64]
  else [240 + n / 262144, 128 + (n / 4096) % 64, 128 + (n / 64) % 64, 128 + n % 64]

/-- `s.encode("utf-8")` as a byte list. -/
def utf8 (s : String) : List Nat := s.data.flatMap utf8Char

/-- `hashlib.sha256(s.encode("utf-8")).hexdigest()`. -/
def sha256hex (s : String) : String := sha256hexBytes (utf8 s)

/-! ## HMAC-SHA256 (hmac.new(key, msg, hashlib.sha256)) and URL-safe base64 -/

/-- HMAC-SHA256 over byte lists (RFC 2104 with a 64-byte block). -/
def hmacSha256 (key msg : List Nat) : List Nat :=
  let k0 := if key.length > 64 then sha256Bytes key else key
  let k := k0 ++ List.replicate (64 - k0.length) 0
  sha256Bytes ((k.map (· ^^^ 0x5c)) ++ sha256Bytes ((k.map (· ^^^ 0x36)) ++ msg))

/-- The URL-safe base64 alphabet (`base64.urlsafe_b64encode`). -/
def b64Char (n : Nat) : Char :=
  if n < 26 then Char.ofNat (65 + n)
  else if n < 52 then Char.ofNat (97 + n - 26)
  else if n < 62 then Char.ofNat (48 + n - 52)
  else if n = 62 then '-' else '_'

/-- URL-safe base64 of a byte list, with `=` padding. -/
def b64urlChars : List Nat → List Char
  | [] => []
  | [a] => [b64Char (a >>> 2), b64Char ((a % 4) <<< 4), '=', '=']
  | [a, b] => [b64Char (a >>> 2), b64Char (((a % 4) <<< 4) + (b >>> 4)),
      b64Char ((b % 16) <<< 2), '=']
  | a :: b :: c :: rest =>
    b64Char (a >>> 2) :: b64Char (((a % 4) <<< 4) + (b >>> 4)) ::
      b64Char (((b % 16) <<< 2) + (c >>> 6)) :: b64Char (c % 64) :: b64urlChars rest

/-- `base64.urlsafe_b64encode(bytes).decode()`. -/
def b64urlEncode (bytes : List Nat) : String := String.mk (b64urlChars bytes)

/-! ## Canonical JSON fragments (json.dumps with sort_keys=True and
separators=(",", ":"), ensure_ascii default) -/

/-- Four lowercase hex digits, as used by JSON `\u` escapes. -/
def hex4 (n : Nat) : List Char :=
  [hexDigit ((n >>> 12) % 16), hexDigit ((n >>> 8) % 16), hexDigit ((n >>> 4) % 16),
   hexDigit (n % 16)]

/-- JSON escaping of one character, matching CPython's ASCII encoder: the
short escapes, `\u00xx` for other controls, pass-through for printable
ASCII, and `\uxxxx` (with surrogate pairs) above `0x7e`. -/
def jsonEscapeChar (c : Char) : List Char :=
  let n := c.toNat
  if n = 34 then ['\\', '"']
  else if n = 92 then ['\\', '\\']
  else if n = 8 then ['\\', 'b']
  else if n = 9 then ['\\', 't']
  else if n = 10 then ['\\', 'n']
  else if n = 12 then ['\\', 'f']
  else if n = 13 then ['\\', 'r']
  else if n < 32 then '\\' :: 'u' :: hex4 n
  else if n < 127 then [c]
  else if n < 65536 then '\\' :: 'u' :: hex4 n
  else
    let m := n - 65536
    ('\\' :: 'u' :: hex4 (55296 + (m >>> 10))) ++ ('\\' :: 'u' :: hex4 (56320 + (m % 1024)))

/-- A JSON string literal with quotes. -/
def jsonStr (s : String) : String :=
  String.mk ('"' :: s.data.flatMap jsonEscapeChar ++ ['"'])

/-- A JSON string or `null`. -/
def jsonOptStr : Option String → String
  | none => "null"
  | some s => jsonStr s

/-- A JSON integer or `null`. -/
def jsonOptInt : Option Int → String
  | none => "null"
  | some i => toString i

/-- A JSON array of string literals. -/
def jsonStrList (l : List String) : String :=
  "[" ++ String.intercalate "," (l.map jsonStr) ++ "]"

/-- A JSON object from key/value pairs whose values are already serialized
(keys assumed distinct; `json.dumps(..., sort_keys=True)` sorts them). -/
def jsonObj (pairs : List (String × String)) : String :=
  "\x7b" ++ String.intercalate "," (pairs.map fun p => jsonStr p.1 ++ ":" ++ p.2) ++ "\x7d"

/-- Python's `sorted` on strings: any stable comparison sort under the
code-point lexicographic order; insertion sort has the same graph. -/
def pySorted (l : List String) : List String :=
  List.insertionSort (· ≤ ·) l

/-- Keys of a string-valued map in sorted order with serialized values, as
`json.dumps(d, sort_keys=True)` renders a `dict`. -/
def jsonStrObjSorted (pairs : List (String × String)) : String :=
  jsonObj ((List.insertionSort (fun p q : String × String => p.1 ≤ q.1) pairs).map
    fun p => (p.1, jsonStr p.2))

/-- Datetime instants are modelled as naturals; `isoformat` is their
decimal rendering, an injective stand-in for the ISO-8601 string. -/
def isoformat (t : Nat) : String := toString t

/-! ## CryptoService (crypto_service.py) -/

/-- `CryptoService.compute_content_hash`: canonical JSON of the immutable
contract terms with sorted keys (`actions`, `data_types`, `expires_at`,
`party_a`, `party_b`, `purpose`, `retention_days`), the two set-valued
fields sorted, minimal separators, then SHA-256 as lowercase hex. -/
def computeContentHash (partyA partyB : String) (dataTypes actions : List String)
    (purpose : String) (retentionDays : Option Int) (expiresAt : Option Nat) : String :=
  sha256hex (jsonObj [
    ("actions", jsonStrList (pySorted actions)),
    ("data_types", jsonStrList (pySorted dataTypes)),
    ("expires_at", jsonOptStr (expiresAt.map isoformat)),
    ("party_a", jsonStr partyA),
    ("party_b", jsonStr partyB),
    ("purpose", jsonStr purpose),
    ("retention_days", jsonOptInt retentionDays)])

/-- A Python exception value as observed by `verify_signature`'s handler. -/
inductive PyError where
  | invalidSignature
  | valueError
  | typeError
  | otherError
deriving DecidableEq, Repr

/-- The third-party `cryptography` primitives `verify_signature` calls,
abstracted over the key type: PEM loading, the `isinstance` check for
Ed25519, base64 decoding, and the raw verification call (which raises
`InvalidSignature` on mismatch). Each may raise, modelled by `Except`. -/
structure CryptoPrimitives (Key : Type) where
  loadPemPublicKey : String → Except PyError Key
  isEd25519 : Key → Bool
  b64decode : String → Except PyError (List Nat)
  ed25519Verify : Key → List Nat → List Nat → Except PyError Unit

/-- `CryptoService.verify_signature`: load the PEM key, require an Ed25519
key, base64-decode the signature, require exactly 64 bytes, verify against
the UTF-8 bytes of the content-hash string; every raised exception and
every failed check collapses to `false`. -/
def verifySignature {Key : Type} (prims : CryptoPrimitives Key)
    (publicKeyPem signatureB64 contentHash : String) : Bool :=
  match prims.loadPemPublicKey publicKeyPem with
  | .error _ => false
  | .ok key =>
    if !prims.isEd25519 key then false
    else
      match prims.b64decode signatureB64 with
      | .error _ => false
      | .ok signatureBytes =>
        if signatureBytes.length ≠ 64 then false
        else
          match prims.ed25519Verify key signatureBytes (utf8 contentHash) with
          | .error _ => false
          | .ok _ => true

/-! ## Contract data model (models/contract.py) -/

/-- `ContractStatusEnum`. -/
inductive ContractStatus where
  | proposed
  | active
  | revoked
  | expired
deriving DecidableEq, Repr

/-- `ConsentContractModel`: one row of `consent_contracts`. UUIDs are
modelled as strings, datetimes as natural-number instants. -/
structure Contract where
  contract_id : String
  party_a : String
  party_b : String
  data_types : List String
  actions : List String
  purpose : String
  retention_days : Option Int
  geographic_scope : List String
  party_a_signature : Option String
  party_b_signature : Option String
  status : ContractStatus
  content_hash : String
  created_at : Nat
  updated_at : Nat
  signed_at : Option Nat
  expires_at : Option Nat
  revoked_at : Option Nat
  revoked_by : Option String
  revocation_reason : Option String
deriving DecidableEq, Repr

/-! ## ContractService.sign_contract (contracts_service.py) -/

/-- The error kinds `sign_contract` raises as HTTP exceptions. -/
inductive SignError where
  | notFound
  | invalidState
  | forbidden
  | conflict
  | invalidSignature
deriving DecidableEq, Repr

/-- Replace the first list element satisfying `p` by `f` of it. -/
def updateFirst {α : Type} (p : α → Bool) (f : α → α) : List α → List α
  | [] => []
  | x :: rest => if p x then f x :: rest else x :: updateFirst p f rest

/-- `ContractService._get_contract` without the raise: the first stored
contract with the given id (an unparsable or unknown id both surface as
not-found). -/
def getContract (store : List Contract) (contractId : String) : Option Contract :=
  store.find? fun c => c.contract_id == contractId

/-- `ContractService.sign_contract`: look up the contract (NotFound),
require PROPOSED status (InvalidState), require the signer to be a party
(Forbidden), reject a duplicate signature for that party (Conflict),
verify the Ed25519 signature against the stored content hash
(InvalidSignature), then store the signature; if both signatures are then
present, transition to ACTIVE and stamp `signed_at = now`. Returns the
updated contract and store. -/
def signContract {Key : Type} (prims : CryptoPrimitives Key) (store : List Contract)
    (contractId agentId signature publicKeyPem : String) (now : Nat) :
    Except SignError (Contract × List Contract) :=
  match getContract store contractId with
  | none => .error .notFound
  | some contract =>
    if contract.status ≠ ContractStatus.proposed then .error .invalidState
    else
      let isPartyA := agentId == contract.party_a
      let isPartyB := agentId == contract.party_b
      if !isPartyA && !isPartyB then .error .forbidden
      else if isPartyA && contract.party_a_signature.isSome then .error .conflict
      else if isPartyB && contract.party_b_signature.isSome then .error .conflict
      else if !verifySignature prims publicKeyPem signature contract.content_hash then
        .error .invalidSignature
      else
        let signed :=
          if isPartyA then { contract with party_a_signature := some signature }
          else { contract with party_b_signature := some signature }
        let final :=
          if signed.party_a_signature.isSome && signed.party_b_signature.isSome then
            { signed with status := ContractStatus.active, signed_at := some now }
          else signed
        .ok (final, updateFirst (fun c => c.contract_id == contractId) (fun _ => final) store)

/-- The claim's reading of `sign`, written from the specification sentences
in their stated precedence, to be compared with `signContract`. -/
def signContractSpec {Key : Type} (prims : CryptoPrimitives Key) (store : List Contract)
    (contractId agentId signature publicKeyPem : String) (now : Nat) :
    Except SignError (Contract × List Contract) :=
  match getContract store contractId with
  | none => .error .notFound
  | some contract =>
    if contract.status ≠ ContractStatus.proposed then .error .invalidState
    else if agentId ≠ contract.party_a ∧ agentId ≠ contract.party_b then .error .forbidden
    else
      let slot := if agentId == contract.party_a then contract.party_a_signature
        else contract.party_b_signature
      if slot.isSome then .error .conflict
      else if !verifySignature prims publicKeyPem signature contract.content_hash then
        .error .invalidSignature
      else
        let signed :=
          if agentId == contract.party_a then { contract with party_a_signature := some signature }
          else { contract with party_b_signature := some signature }
        let final :=
          if signed.party_a_signature.isSome && signed.party_b_signature.isSome then
            { signed with status := ContractStatus.active, signed_at := some now }
          else signed
        .ok (final, updateFirst (fun c => c.contract_id == contractId) (fun _ => final) store)

/-! ## PIN data model and service (models/pin.py, schemas/pins.py,
pins_service.py, core/config.py) -/

/-- `PinScope`: the data types and actions a PIN authorizes. -/
structure PinScope where
  data_types : List String
  actions : List String
deriving DecidableEq, Repr

/-- `AgentPinModel`: one row of `agent_pins`. -/
structure Pin where
  pin_id : String
  contract_id : String
  agent_id : String
  scope : PinScope
  signature : String
  issued_at : Nat
  expires_at : Nat
  used_at : Option Nat
  single_use : Bool
  revoked : Bool
  revoked_at : Option Nat
  revocation_reason : Option String
deriving DecidableEq, Repr

/-- `CreatePinRequest`: contract, requested scope, and the single-use flag.
The request carries no TTL field. -/
structure CreatePinRequest where
  contract_id : String
  scope : PinScope
  single_use : Bool
deriving DecidableEq, Repr

/-- `ValidatePinRequest`: presented credential and requested scope. -/
structure ValidatePinRequest where
  pin : String
  requested_scope : PinScope
deriving DecidableEq, Repr

/-- `ValidatePinResponse`. -/
structure ValidatePinResponse where
  valid : Bool
  contract_id : Option String
  error_code : Option String
  error_message : Option String
deriving DecidableEq, Repr

/-- The slice of `Settings` (core/config.py) the PIN service reads: the
fixed TTL and the server-held HMAC signing key. -/
structure Settings where
  pin_ttl_seconds : Nat
  pin_signing_key : String
deriving DecidableEq, Repr

/-- The defaults of `Settings`. -/
def defaultSettings : Settings :=
  { pin_ttl_seconds := 60, pin_signing_key := "dev-pin-signing-key-change-in-production" }

/-- The error kinds `create_pin` raises as HTTP exceptions. -/
inductive CreatePinError where
  | contractNotActive
  | notContractParty
  | scopeExceedsContract
deriving DecidableEq, Repr

/-- `PinsService._sign_token`: HMAC-SHA256 of `"{pin_id}:{token}"` under
the signing key, URL-safe base64 encoded. -/
def signToken (signingKey : String) (token pinId : String) : String :=
  b64urlEncode (hmacSha256 (utf8 signingKey) (utf8 (pinId ++ ":" ++ token)))

/-- `PinsService._verify_signature`: recompute and compare (the constant
time of `hmac.compare_digest` has no functional content). -/
def verifyPinSignature (signingKey : String) (token pinId signature : String) : Bool :=
  signToken signingKey token pinId == signature

/-- `PinsService._get_active_contract`: the first stored contract with the
given id that is ACTIVE and not past its optional expiry. -/
def getActiveContract (contracts : List Contract) (contractId : String) (now : Nat) :
    Option Contract :=
  contracts.find? fun c =>
    c.contract_id == contractId && c.status == ContractStatus.active &&
      (match c.expires_at with
        | none => true
        | some t => now < t)

/-- `PinsService._validate_scope_against_contract`: the requested PIN scope
is a subset of the contract's data types and actions. -/
def validateScopeAgainstContract (scope : PinScope) (contract : Contract) : Bool :=
  scope.data_types.all contract.data_types.contains &&
    scope.actions.all contract.actions.contains

/-- `PinsService._is_scope_subset`: the requested scope is a subset of the
granted PIN scope. -/
def isScopeSubset (requested granted : PinScope) : Bool :=
  requested.data_types.all granted.data_types.contains &&
    requested.actions.all granted.actions.contains

/-- `PinsService.create_pin`: require an active parent contract
(CONTRACT_NOT_ACTIVE), require the agent to be a party
(NOT_CONTRACT_PARTY), require the scope to be a subset of the contract's
(SCOPE_EXCEEDS_CONTRACT); then record the PIN with
`expires_at = issued_at + settings.pin_ttl_seconds`. The random
`pin_id`/`token` and the issuance instant are explicit inputs. -/
def createPin (settings : Settings) (contracts : List Contract) (agentId : String)
    (request : CreatePinRequest) (pinId token : String) (now : Nat) :
    Except CreatePinError Pin :=
  match getActiveContract contracts request.contract_id now with
  | none => .error .contractNotActive
  | some contract =>
    if agentId ≠ contract.party_a ∧ agentId ≠ contract.party_b then .error .notContractParty
    else if !validateScopeAgainstContract request.scope contract then .error .scopeExceedsContract
    else
      .ok { pin_id := pinId
            contract_id := request.contract_id
            agent_id := agentId
            scope := request.scope
            signature := signToken settings.pin_signing_key token pinId
            issued_at := now
            expires_at := now + settings.pin_ttl_seconds
            used_at := none
            single_use := request.single_use
            revoked := false
            revoked_at := none
            revocation_reason := none }

/-- The full bearer credential `create_pin` returns once:
`f"{token}.{signature}"`. -/
def fullPin (settings : Settings) (token pinId : String) : String :=
  token ++ "." ++ signToken settings.pin_signing_key token pinId

/-- Split a character list at its last `'.'`, keeping both sides. -/
def rsplitDotChars : List Char → Option (List Char × List Char)
  | [] => none
  | c :: rest =>
    match rsplitDotChars rest with
    | some p => some (c :: p.1, p.2)
    | none => if c = '.' then some ([], rest) else none

/-- `str.rsplit(".", 1)` destructured into two pieces: split at the last
dot, or `none` when the string has no dot (the `ValueError` branch of the
two-name unpacking). -/
def rsplitDot (s : String) : Option (String × String) :=
  (rsplitDotChars s.data).map fun p => (String.mk p.1, String.mk p.2)

/-- The lookup `validate_pin` performs: the first stored PIN with this id
that is not revoked (the locked row). -/
def findPin (pins : List Pin) (pinId : String) : Option Pin :=
  pins.find? fun p => p.pin_id == pinId && !p.revoked

/-- An error response of `validate_pin`. -/
def pinErrorResponse (code message : String) : ValidatePinResponse :=
  { valid := false, contract_id := none, error_code := some code,
    error_message := some message }

/-- `PinsService.validate_pin`: under the row lock, check existence and
revocation, expiry, single-use consumption, credential format, HMAC
signature, scope containment, and parent-contract activity, in that
order; on success of a single-use PIN set `used_at = now` before commit.
Returns the response and the store after commit. -/
def validatePin (settings : Settings) (contracts : List Contract) (pins : List Pin)
    (pinId : String) (request : ValidatePinRequest) (now : Nat) :
    ValidatePinResponse × List Pin :=
  match findPin pins pinId with
  | none => (pinErrorResponse "PIN_NOT_FOUND" "PIN not found or revoked", pins)
  | some pin =>
    if now > pin.expires_at then
      (pinErrorResponse "PIN_EXPIRED" "PIN has expired", pins)
    else if pin.used_at.isSome then
      (pinErrorResponse "PIN_ALREADY_USED" "Single-use PIN has already been used", pins)
    else
      match rsplitDot request.pin with
      | none => (pinErrorResponse "INVALID_PIN_FORMAT" "Invalid PIN format", pins)
      | some (token, signature) =>
        if !verifyPinSignature settings.pin_signing_key token pin.pin_id signature then
          (pinErrorResponse "PIN_INVALID" "PIN signature verification failed", pins)
        else if !isScopeSubset request.requested_scope pin.scope then
          (pinErrorResponse "PIN_SCOPE_MISMATCH" "Requested scope exceeds PIN scope", pins)
        else
          match getActiveContract contracts pin.contract_id now with
          | none => (pinErrorResponse "CONTRACT_NOT_ACTIVE" "Parent contract is not active", pins)
          | some _ =>
            let pins' :=
              if pin.single_use then
                updateFirst (fun p => p.pin_id == pinId && !p.revoked)
                  (fun p => { p with used_at := some now }) pins
              else pins
            ({ valid := true, contract_id := some pin.contract_id, error_code := none,
               error_message := none }, pins')

/-! ## Audit data model and service (models/audit_log.py, schemas/audit.py,
audit_service.py) -/

/-- `AuditActionEnum`. -/
inductive AuditAction where
  | request
  | response
  | error
  | validation
  | revocation
deriving DecidableEq, Repr

/-- `AuditStatusEnum`. -/
inductive AuditStatus where
  | sent
  | received
  | denied
  | error
  | expired
deriving DecidableEq, Repr

/-- The string `.value` of an audit action. -/
def AuditAction.value : AuditAction → String
  | .request => "request"
  | .response => "response"
  | .error => "error"
  | .validation => "validation"
  | .revocation => "revocation"

/-- The string `.value` of an audit status. -/
def AuditStatus.value : AuditStatus → String
  | .sent => "sent"
  | .received => "received"
  | .denied => "denied"
  | .error => "error"
  | .expired => "expired"

/-- `AuditLogModel`: one row of `audit_logs` as `create_log` populates it.
`metadata` is modelled as a string-valued map given as key/value pairs.
`source_ip` and `geo_location` are persisted columns that
`_compute_entry_hash` deliberately leaves out of the hashed content. -/
structure AuditEntry where
  log_id : String
  timestamp : Nat
  contract_id : Option String
  pin_id : Option String
  agent_id : String
  action : AuditAction
  status : AuditStatus
  target_system : String
  scope_data_types : List String
  log_metadata : List (String × String)
  source : String
  request_id : String
  source_ip : Option String
  geo_location : Option String
  prev_hash : String
  entry_hash : String
deriving DecidableEq, Repr

/-- `CreateAuditLogRequest`. -/
structure CreateAuditLogRequest where
  transaction_id : String
  contract_id : Option String
  pin_id : Option String
  action : AuditAction
  status : AuditStatus
  counterparty_agent_id : String
  data_types : List String
  log_metadata : List (String × String)
deriving DecidableEq, Repr

/-- `AuditService.GENESIS_HASH`: 64 zeros. -/
def genesisHash : String := String.mk (List.replicate 64 '0')

/-- `AuditService._compute_entry_hash`: canonical JSON of every stored
field except `entry_hash` itself, keys sorted, minimal separators, then
SHA-256 as lowercase hex. -/
def computeEntryHash (log : AuditEntry) : String :=
  sha256hex (jsonObj [
    ("action", jsonStr log.action.value),
    ("agent_id", jsonStr log.agent_id),
    ("contract_id", jsonOptStr log.contract_id),
    ("log_id", jsonStr log.log_id),
    ("metadata", jsonStrObjSorted log.log_metadata),
    ("pin_id", jsonOptStr log.pin_id),
    ("prev_hash", jsonStr log.prev_hash),
    ("request_id", jsonStr log.request_id),
    ("scope", jsonObj [("data_types", jsonStrList log.scope_data_types)]),
    ("source", jsonStr log.source),
    ("status", jsonStr log.status.value),
    ("target_system", jsonStr log.target_system),
    ("timestamp", jsonStr (isoformat log.timestamp))])

/-- An agent's entries in ascending timestamp order (`ORDER BY timestamp
ASC` over the rows matching the agent), via a stable sort. -/
def agentLogsAsc (store : List AuditEntry) (agentId : String) : List AuditEntry :=
  List.insertionSort (fun a b => a.timestamp ≤ b.timestamp)
    (store.filter fun e => e.agent_id == agentId)

/-- `AuditService._get_latest_hash_locked`: the `entry_hash` of the
agent's latest entry (`ORDER BY timestamp DESC ... .first()`), or the
genesis constant when the agent has none. -/
def latestHashLocked (store : List AuditEntry) (agentId : String) : String :=
  match (agentLogsAsc store agentId).getLast? with
  | none => genesisHash
  | some e => e.entry_hash

/-- `AuditService.create_log`: read the chain tip's hash under the lock,
build the entry with `prev_hash` set to it, compute `entry_hash` over the
stored fields, and append the row. The random `log_id` and the server
instant are explicit inputs. Returns the entry and the grown store. -/
def createLog (store : List AuditEntry) (agentId : String)
    (request : CreateAuditLogRequest) (logId : String) (now : Nat) :
    AuditEntry × List AuditEntry :=
  let prevHash := latestHashLocked store agentId
  let log0 : AuditEntry :=
    { log_id := logId
      timestamp := now
      contract_id := request.contract_id
      pin_id := request.pin_id
      agent_id := agentId
      action := request.action
      status := request.status
      target_system := request.counterparty_agent_id
      scope_data_types := request.data_types
      log_metadata := request.log_metadata
      source := agentId
      request_id := request.transaction_id
      source_ip := none
      geo_location := none
      prev_hash := prevHash
      entry_hash := "" }
  let log := { log0 with entry_hash := computeEntryHash log0 }
  (log, store ++ [log])

/-- The prev-hash failure message of `verify_chain`. -/
def chainBrokenMsg (log : AuditEntry) (expected : String) : String :=
  "Chain broken at " ++ log.log_id ++ ": prev_hash mismatch (expected " ++
    expected.take 16 ++ "..., got " ++
    (if log.prev_hash = "" then "None" else log.prev_hash.take 16) ++ "...)"

/-- The recomputed-hash failure message of `verify_chain`. -/
def entryTamperedMsg (log : AuditEntry) (computed : String) : String :=
  "Entry tampered at " ++ log.log_id ++ ": hash mismatch (stored " ++
    log.entry_hash.take 16 ++ "..., computed " ++ computed.take 16 ++ "...)"

/-- The verification loop of `verify_chain` over the loaded entries, with
the running expected previous hash. -/
def verifyLoop (expected : String) : List AuditEntry → Bool × Option String
  | [] => (true, none)
  | log :: rest =>
    if log.prev_hash ≠ expected then (false, some (chainBrokenMsg log expected))
    else
      let computed := computeEntryHash log
      if log.entry_hash ≠ computed then (false, some (entryTamperedMsg log computed))
      else verifyLoop log.entry_hash rest

/-- `verify_chain`'s body over the loaded, ascending entries: an empty
chain is valid; the initial expected hash is the genesis constant when the
first entry carries it and otherwise that entry's own `prev_hash` (a
chain continuing from before the loaded window). -/
def verifyChainList (logs : List AuditEntry) : Bool × Option String :=
  match logs with
  | [] => (true, none)
  | first :: _ =>
    let expected := if first.prev_hash == genesisHash then genesisHash else first.prev_hash
    verifyLoop expected logs

/-- `AuditService.verify_chain`: load the agent's entries in the optional
time window in ascending order and run the verification loop. -/
def verifyChain (store : List AuditEntry) (agentId : String)
    (startTime endTime : Option Nat) : Bool × Option String :=
  let windowed := (agentLogsAsc store agentId).filter fun e =>
    (match startTime with | none => true | some t => t ≤ e.timestamp) &&
    (match endTime with | none => true | some t => e.timestamp ≤ t)
  verifyChainList windowed

/-- The chain predicate of the (amended) specification: every entry's
stored hash recomputes from its fields, and every entry after the first
links to its predecessor's `entry_hash`. -/
def chainLinkedFrom (prev : String) : List AuditEntry → Bool
  | [] => true
  | e :: rest => e.prev_hash == prev && chainLinkedFrom e.entry_hash rest

/-- A chain is well formed when hashes recompute and consecutive entries
link; the first entry's `prev_hash` is unconstrained. -/
def chainOk (logs : List AuditEntry) : Bool :=
  (logs.all fun e => e.entry_hash == computeEntryHash e) &&
    (match logs with
      | [] => true
      | e :: rest => chainLinkedFrom e.entry_hash rest)

/-- The entry hash at the end of a segment, seen from a running previous
hash: the last entry's `entry_hash`, or the running hash for an empty
segment. -/
def lastEntryHash (prev : String) (l : List AuditEntry) : String :=
  match l.getLast? with
  | none => prev
  | some e => e.entry_hash

/-! ## Operation sequences and concrete fixtures -/

/-- One `validate_pin` call with all of its inputs. -/
structure ValidateOp where
  settings : Settings
  contracts : List Contract
  pin_id : String
  request : ValidatePinRequest
  now : Nat

/-- Run a sequence of `validate_pin` calls against a PIN store, keeping
only the final store. -/
def runValidations (ops : List ValidateOp) (pins : List Pin) : List Pin :=
  ops.foldl (fun st op => (validatePin op.settings op.contracts st op.pin_id op.request op.now).2)
    pins

/-- Every stored copy of this PIN id has been consumed. -/
def pinConsumed (pins : List Pin) (pinId : String) : Prop :=
  ∀ pin, findPin pins pinId = some pin → pin.used_at.isSome = true

/-- The TTL a `create_pin` result actually received. -/
def pinExpiryOffset (r : Except CreatePinError Pin) : Option Nat :=
  match r with
  | .ok p => some (p.expires_at - p.issued_at)
  | .error _ => none

/-- One `create_log` call with all of its inputs. -/
structure AuditOp where
  agent_id : String
  request : CreateAuditLogRequest
  log_id : String
  now : Nat

/-- Build an audit store by a sequence of `create_log` calls from empty. -/
def buildAuditStore (ops : List AuditOp) : List AuditEntry :=
  ops.foldl (fun st op => (createLog st op.agent_id op.request op.log_id op.now).2) []

/-- A fixture: an ACTIVE bilateral contract with no expiry. -/
def contractW : Contract :=
  { contract_id := "c-1", party_a := "system:acme", party_b := "agent:scheduler",
    data_types := ["appointment"], actions := ["read"], purpose := "scheduling",
    retention_days := some 30, geographic_scope := [], party_a_signature := some "sigA",
    party_b_signature := some "sigB", status := ContractStatus.active,
    content_hash := "h", created_at := 0, updated_at := 0, signed_at := some 1,
    expires_at := none, revoked_at := none, revoked_by := none, revocation_reason := none }

/-- A fixture: the same contract still awaiting signatures. -/
def contractP : Contract :=
  { contractW with
    status := ContractStatus.proposed,
    party_a_signature := none, party_b_signature := none, signed_at := none }

/-- A fixture: the scope both the contract and the PINs carry. -/
def scopeW : PinScope := { data_types := ["appointment"], actions := ["read"] }

/-- A fixture: a single-use PIN issued under `contractW` at instant 10,
exactly as `createPin defaultSettings` records it. -/
def pinW : Pin :=
  { pin_id := "pin-1", contract_id := "c-1", agent_id := "agent:scheduler",
    scope := scopeW, signature := signToken defaultSettings.pin_signing_key "tok" "pin-1",
    issued_at := 10, expires_at := 70, used_at := none, single_use := true,
    revoked := false, revoked_at := none, revocation_reason := none }

/-- A fixture: the same PIN as reusable (`single_use = false`). -/
def pin2W : Pin :=
  { pinW with
    pin_id := "pin-2",
    signature := signToken defaultSettings.pin_signing_key "tok" "pin-2",
    single_use := false }

/-- A fixture: the correct credential for `pinW`. -/
def vreqW : ValidatePinRequest :=
  { pin := "tok." ++ signToken defaultSettings.pin_signing_key "tok" "pin-1",
    requested_scope := scopeW }

/-- A fixture: the correct credential for `pin2W`. -/
def vreq2W : ValidatePinRequest :=
  { pin := "tok." ++ signToken defaultSettings.pin_signing_key "tok" "pin-2",
    requested_scope := scopeW }

/-- A fixture: crypto primitives whose checks all succeed, for exercising
the success path of `sign_contract`. -/
def toyPrims : CryptoPrimitives Unit :=
  { loadPemPublicKey := fun _ => .ok ()
    isEd25519 := fun _ => true
    b64decode := fun _ => .ok (List.replicate 64 7)
    ed25519Verify := fun _ _ _ => .ok () }

/-- A fixture: an audit-log request. -/
def areqW : CreateAuditLogRequest :=
  { transaction_id := "t-1", contract_id := some "c-1", pin_id := none,
    action := AuditAction.request, status := AuditStatus.sent,
    counterparty_agent_id := "system:acme", data_types := ["appointment"],
    log_metadata := [("k", "v")] }

/-- A fixture: two appends for the same agent at instants 5 and 6. -/
def auditOpsW : List AuditOp :=
  [{ agent_id := "agent:scheduler", request := areqW, log_id := "log-1", now := 5 },
   { agent_id := "agent:scheduler", request := areqW, log_id := "log-2", now := 6 }]

/-- A fixture: a single-entry chain whose first `prev_hash` is not the
genesis constant but whose stored hash recomputes correctly. -/
def nonGenesisEntry : AuditEntry :=
  let base : AuditEntry :=
    { log_id := "log-x", timestamp := 3, contract_id := none, pin_id := none,
      agent_id := "agent:w", action := AuditAction.request, status := AuditStatus.sent,
      target_system := "t", scope_data_types := [], log_metadata := [],
      source := "agent:w", request_id := "t-9", source_ip := none, geo_location := none,
      prev_hash := String.mk (List.replicate 64 'f'), entry_hash := "" }
  { base with entry_hash := computeEntryHash base }

/-- A fixture: the entry appended by `create_log` to an empty store. -/
def entryW : AuditEntry := (createLog [] "agent:scheduler" areqW "log-1" 5).1

/-- A fixture: `entryW` with its `source` field tampered, hashes left
untouched. -/
def tamperedEntryW : AuditEntry := { entryW with source := "evil" }

/-- A fixture: `entryW` with only its `agent_id` field tampered, hashes
left untouched. -/
def movedEntryW : AuditEntry := { entryW with agent_id := "agent:other" }

/-- A fixture: `entryW` with only its unhashed `source_ip` column
tampered. -/
def sourceIpTamperedW : AuditEntry := { entryW with source_ip := some "10.0.0.1" }

/-- A fixture: the store after the first append. -/
def auditStore1 : List AuditEntry := (createLog [] "agent:scheduler" areqW "log-1" 5).2

/-- A fixture: the entry appended second, at instant 6. -/
def entry2W : AuditEntry := (createLog auditStore1 "agent:scheduler" areqW "log-2" 6).1

/-- A fixture: the store after the second append. -/
def auditStore2 : List AuditEntry := (createLog auditStore1 "agent:scheduler" areqW "log-2" 6).2

/-- A fixture: the entry appended third, at instant 7. -/
def entry3W : AuditEntry := (createLog auditStore2 "agent:scheduler" areqW "log-3" 7).1

/-- A fixture: the store after three appends for the same agent. -/
def auditStore3 : List AuditEntry := (createLog auditStore2 "agent:scheduler" areqW "log-3" 7).2

/-- A fixture: `entry2W` with only its `prev_hash` link tampered. -/
def brokenEntry2W : AuditEntry := { entry2W with prev_hash := genesisHash }

/-- A fixture: the three-append store with only the `timestamp` of the
middle entry `log-2` mutated, past the other two. -/
def timeShiftedStore3 : List AuditEntry :=
  auditStore3.map fun e => if e.log_id = "log-2" then { e with timestamp := 100 } else e

/-- A fixture: a single-use `create_pin` request under `contractW`. -/
def reqA : CreatePinRequest :=
  { contract_id := "c-1", scope := scopeW, single_use := true }

/-- A fixture: a request differing from `reqA` in scope and single-use. -/
def reqB : CreatePinRequest :=
  { contract_id := "c-1", scope := { data_types := [], actions := [] }, single_use := false }

/-- A fixture: a request whose scope exceeds `contractW`'s. -/
def reqBig : CreatePinRequest :=
  { contract_id := "c-1",
    scope := { data_types := ["appointment", "billing"], actions := ["read"] },
    single_use := false }

/-- A fixture: settings with a non-default TTL. -/
def settings17 : Settings :=
  { defaultSettings with pin_ttl_seconds := 17 }

/-- A fixture: the PIN issued by `createPin defaultSettings` for `reqA`
at instant 100. -/
def pinA : Pin :=
  match createPin defaultSettings [contractW] "agent:scheduler" reqA "p1" "t1" 100 with
  | .ok p => p
  | .error _ => pinW

/-! ## Helper lemmas -/

/-- Sorting is invariant under permutation of the input. -/
theorem pySorted_perm_congr {l₁ l₂ : List String} (h : l₁.Perm l₂) :
    pySorted l₁ = pySorted l₂ := by
  unfold pySorted
  exact List.eq_of_perm_of_sorted
    ((List.perm_insertionSort _ _).trans (h.trans (List.perm_insertionSort _ _).symm))
    (List.sorted_insertionSort _ _) (List.sorted_insertionSort _ _)

/-- Full case bookkeeping for `validate_pin`: either the call succeeded —
the PIN was found unexpired and unconsumed, the response is the success
response, and the store is updated exactly when the PIN is single-use —
or the call failed and the store is untouched. -/
theorem validatePin_cases (settings : Settings) (contracts : List Contract)
    (pins : List Pin) (pinId : String) (request : ValidatePinRequest) (now : Nat) :
    (∃ pin, findPin pins pinId = some pin ∧
      ((validatePin settings contracts pins pinId request now).1).valid = true ∧
      ¬ now > pin.expires_at ∧ pin.used_at = none ∧
      (validatePin settings contracts pins pinId request now).1 =
        { valid := true, contract_id := some pin.contract_id, error_code := none,
          error_message := none } ∧
      (validatePin settings contracts pins pinId request now).2 =
        (if pin.single_use then
          updateFirst (fun p => p.pin_id == pinId && !p.revoked)
            (fun p => { p with used_at := some now }) pins
         else pins)) ∨
    (((validatePin settings contracts pins pinId request now).1).valid = false ∧
      (validatePin settings contracts pins pinId request now).2 = pins) := by
  unfold validatePin
  cases hf : findPin pins pinId with
  | none => exact Or.inr ⟨rfl, rfl⟩
  | some pin =>
    by_cases h1 : now > pin.expires_at
    · exact Or.inr (by simp [h1, pinErrorResponse])
    · by_cases h2 : pin.used_at.isSome
      · exact Or.inr (by simp [h1, h2, pinErrorResponse])
      · cases hsp : rsplitDot request.pin with
        | none => exact Or.inr (by simp [h1, h2, pinErrorResponse])
        | some ts =>
          obtain ⟨token, signature⟩ := ts
          by_cases h3 : verifyPinSignature settings.pin_signing_key token pin.pin_id signature
          · by_cases h4 : isScopeSubset request.requested_scope pin.scope
            · cases hc : getActiveContract contracts pin.contract_id now with
              | none => exact Or.inr (by simp [h1, h2, h3, h4, hc, pinErrorResponse])
              | some c =>
                refine Or.inl ⟨pin, rfl, ?_, h1, Option.not_isSome_iff_eq_none.mp h2,
                  ?_, ?_⟩ <;> simp [h1, h2, h3, h4, hc]
            · exact Or.inr (by simp [h1, h2, h3, h4, pinErrorResponse])
          · exact Or.inr (by simp [h1, h2, h3, pinErrorResponse])

/-- Looking a PIN up after its own store slot was marked used yields the
marked copy. -/
theorem findPin_updateFirst_used (pins : List Pin) (pinId : String) (now : Nat) :
    findPin (updateFirst (fun p => p.pin_id == pinId && !p.revoked)
      (fun p => { p with used_at := some now }) pins) pinId =
    (findPin pins pinId).map (fun p => { p with used_at := some now }) := by
  induction pins with
  | nil => rfl
  | cons x rest ih =>
    by_cases hx : (x.pin_id == pinId && !x.revoked) = true
    · simp [updateFirst, findPin, hx, List.find?_cons]
    · have hx' : (x.pin_id == pinId && !x.revoked) = false := by simpa using hx
      simp only [findPin, List.find?_cons] at ih ⊢
      simp [updateFirst, hx', List.find?_cons, ih]

/-- Marking a different PIN id used does not change what this id's lookup
returns. -/
theorem findPin_updateFirst_ne (pins : List Pin) (pinId other : String)
    (hne : pinId ≠ other) (now : Nat) :
    findPin (updateFirst (fun p => p.pin_id == other && !p.revoked)
      (fun p => { p with used_at := some now }) pins) pinId = findPin pins pinId := by
  induction pins with
  | nil => rfl
  | cons x rest ih =>
    by_cases hx : (x.pin_id == other && !x.revoked) = true
    · have hxid : x.pin_id = other := (beq_iff_eq.mp (Bool.and_elim_left hx))
      have hxp : (x.pin_id == pinId) = false :=
        beq_eq_false_iff_ne.mpr (fun h => hne (h ▸ hxid))
      simp [updateFirst, findPin, hx, List.find?_cons, hxp]
    · have hx' : (x.pin_id == other && !x.revoked) = false := by simpa using hx
      simp only [findPin, List.find?_cons] at ih ⊢
      by_cases hpx : (x.pin_id == pinId && !x.revoked) = true
      · simp [updateFirst, hx', List.find?_cons, hpx]
      · have hpx' : (x.pin_id == pinId && !x.revoked) = false := by simpa using hpx
        simp [updateFirst, hx', List.find?_cons, hpx', ih]

/-- A consumed PIN id stays consumed across any further `validate_pin`
call, on this or any other PIN. -/
theorem pinConsumed_validate (settings : Settings) (contracts : List Contract)
    (pins : List Pin) (pinId pinId' : String) (request : ValidatePinRequest) (now : Nat)
    (h : pinConsumed pins pinId) :
    pinConsumed ((validatePin settings contracts pins pinId' request now).2) pinId := by
  rcases validatePin_cases settings contracts pins pinId' request now with
    ⟨pin0, hf0, _, _, hu0, _, hstore⟩ | ⟨_, hstore⟩
  · rw [hstore]
    by_cases hsu : pin0.single_use
    · rw [if_pos hsu]
      intro pin hfp
      by_cases heq : pinId = pinId'
      · subst heq
        exact absurd (h pin0 hf0) (by simp [hu0])
      · rw [findPin_updateFirst_ne _ _ _ heq] at hfp
        exact h pin hfp
    · rw [if_neg hsu]; exact h
  · rw [hstore]; exact h

/-- A consumed PIN id stays consumed across any sequence of
`validate_pin` calls. -/
theorem pinConsumed_run (ops : List ValidateOp) (pins : List Pin) (pinId : String)
    (h : pinConsumed pins pinId) : pinConsumed (runValidations ops pins) pinId := by
  induction ops generalizing pins with
  | nil => exact h
  | cons op rest ih =>
    simp only [runValidations, List.foldl_cons] at ih ⊢
    exact ih _ (pinConsumed_validate _ _ _ _ _ _ _ h)

/-- A found, unexpired PIN whose `used_at` is already set fails with
AlreadyUsed. -/
theorem validatePin_found_alreadyUsed (settings : Settings) (contracts : List Contract)
    (pins : List Pin) (pinId : String) (request : ValidatePinRequest) (now : Nat)
    (pin : Pin) (hf : findPin pins pinId = some pin) (hexp : ¬ now > pin.expires_at)
    (hused : pin.used_at.isSome = true) :
    (validatePin settings contracts pins pinId request now).1 =
      pinErrorResponse "PIN_ALREADY_USED" "Single-use PIN has already been used" := by
  unfold validatePin
  rw [hf]
  simp [hexp, hused]

/-- Validating a consumed PIN id never reports it valid. -/
theorem pinConsumed_invalid (settings : Settings) (contracts : List Contract)
    (pins : List Pin) (pinId : String) (request : ValidatePinRequest) (now : Nat)
    (h : pinConsumed pins pinId) :
    ((validatePin settings contracts pins pinId request now).1).valid = false := by
  rcases validatePin_cases settings contracts pins pinId request now with
    ⟨pin0, hf0, _, _, hu0, _, _⟩ | ⟨hv, _⟩
  · exact absurd (h pin0 hf0) (by simp [hu0])
  · exact hv

/-- The running hash after a cons only depends on the segment from the
head on. -/
theorem lastEntryHash_cons (p : String) (e : AuditEntry) (l : List AuditEntry) :
    lastEntryHash p (e :: l) = lastEntryHash e.entry_hash l := by
  cases l with
  | nil => rfl
  | cons x rest =>
    unfold lastEntryHash
    rw [List.getLast?_cons_cons]
    cases h : (x :: rest).getLast? with
    | none => rw [List.getLast?_eq_none_iff] at h; cases h
    | some y => rfl

/-- Splitting the link check across an append. -/
theorem chainLinkedFrom_append (p : String) (l₁ l₂ : List AuditEntry) :
    chainLinkedFrom p (l₁ ++ l₂) =
      (chainLinkedFrom p l₁ && chainLinkedFrom (lastEntryHash p l₁) l₂) := by
  induction l₁ generalizing p with
  | nil => simp [chainLinkedFrom, lastEntryHash]
  | cons e rest ih =>
    simp only [List.cons_append, chainLinkedFrom, List.append_eq, ih, lastEntryHash_cons,
      Bool.and_assoc]

/-- The verification loop returns clean success exactly when the links
from the running hash and all stored hashes check out. -/
theorem verifyLoop_eq_true_iff (logs : List AuditEntry) (expected : String) :
    verifyLoop expected logs = (true, none) ↔
      (chainLinkedFrom expected logs = true ∧
        (logs.all fun e => e.entry_hash == computeEntryHash e) = true) := by
  induction logs generalizing expected with
  | nil => simp [verifyLoop, chainLinkedFrom]
  | cons e rest ih =>
    unfold verifyLoop chainLinkedFrom
    by_cases h1 : e.prev_hash = expected
    · by_cases h2 : e.entry_hash = computeEntryHash e
      · simp [h1, h2, ih]
      · simp [h1, h2]
    · simp [h1]

/-- The verification loop walks through a checked-out segment and
continues from its final hash. -/
theorem verifyLoop_append_ok (l tail : List AuditEntry) (expected : String)
    (hlink : chainLinkedFrom expected l = true)
    (hhash : (l.all fun e => e.entry_hash == computeEntryHash e) = true) :
    verifyLoop expected (l ++ tail) = verifyLoop (lastEntryHash expected l) tail := by
  induction l generalizing expected with
  | nil => simp [lastEntryHash]
  | cons e rest ih =>
    simp only [chainLinkedFrom, Bool.and_eq_true] at hlink
    simp only [List.all_cons, Bool.and_eq_true] at hhash
    rw [List.cons_append, lastEntryHash_cons]
    conv_lhs => rw [verifyLoop]
    rw [if_neg (by simp [beq_iff_eq.mp hlink.1]), if_neg (by simp [beq_iff_eq.mp hhash.1])]
    exact ih _ hlink.2 hhash.2

/-- The degenerate genesis test of `verify_chain`: the initial expected
hash always equals the first entry's own `prev_hash`. -/
theorem verifyChainList_expected (e : AuditEntry) :
    (if e.prev_hash == genesisHash then genesisHash else e.prev_hash) = e.prev_hash := by
  by_cases h : (e.prev_hash == genesisHash) = true
  · rw [if_pos h, beq_iff_eq.mp h]
  · rw [if_neg h]

/-- The characterization of `verify_chain`'s loaded-chain verification:
clean success exactly when every stored hash recomputes and every entry
after the first links to its predecessor — with no constraint on the
first entry's `prev_hash`. -/
theorem verifyChainList_eq_true_iff (logs : List AuditEntry) :
    verifyChainList logs = (true, none) ↔ chainOk logs = true := by
  cases logs with
  | nil => simp [verifyChainList, chainOk]
  | cons e rest =>
    simp only [verifyChainList, chainOk]
    rw [verifyChainList_expected, verifyLoop_eq_true_iff]
    simp only [chainLinkedFrom, beq_self_eq_true, Bool.true_and, List.all_cons,
      Bool.and_eq_true, beq_iff_eq]
    constructor
    · rintro ⟨hl, hh, hrest⟩; exact ⟨⟨hh, hrest⟩, hl⟩
    · rintro ⟨⟨hh, hrest⟩, hl⟩; exact ⟨hl, hh, hrest⟩

/-- Appending an entry whose stored hash recomputes and whose `prev_hash`
is the chain's current final hash keeps the chain well formed. -/
theorem chainOk_append_one (l : List AuditEntry) (e : AuditEntry)
    (hok : chainOk l = true)
    (hhash : (e.entry_hash == computeEntryHash e) = true)
    (hlink : e.prev_hash = lastEntryHash genesisHash l) :
    chainOk (l ++ [e]) = true := by
  cases l with
  | nil => simp [chainOk, hhash, chainLinkedFrom]
  | cons x rest =>
    simp only [chainOk, Bool.and_eq_true, List.all_cons] at hok
    obtain ⟨⟨hx, hrest⟩, hlinked⟩ := hok
    simp only [List.cons_append, chainOk, List.all_cons, List.all_append, List.all_nil,
      Bool.and_eq_true, chainLinkedFrom_append, Bool.and_true]
    rw [lastEntryHash_cons] at hlink
    refine ⟨⟨hx, hrest, hhash⟩, hlinked, ?_⟩
    simp [chainLinkedFrom, hlink]

/-- Verification of a chain with a well-formed nonempty prefix is the
verification of the remaining entries, with the expected hash advanced to
the prefix's final `entry_hash`. -/
theorem verifyChainList_run_head (x : AuditEntry) (rest tail : List AuditEntry)
    (hok : chainOk (x :: rest) = true) :
    verifyChainList ((x :: rest) ++ tail) =
      verifyLoop (lastEntryHash x.entry_hash rest) tail := by
  simp only [chainOk, List.all_cons, Bool.and_eq_true] at hok
  obtain ⟨⟨hx, hallrest⟩, hlinked⟩ := hok
  have hlink1 : chainLinkedFrom x.prev_hash (x :: rest) = true := by
    simp [chainLinkedFrom, hlinked]
  have hhash1 : ((x :: rest).all fun y => y.entry_hash == computeEntryHash y) = true := by
    simp [List.all_cons, hx, hallrest]
  simp only [List.cons_append, verifyChainList]
  rw [verifyChainList_expected]
  rw [show x :: (rest ++ tail) = (x :: rest) ++ tail from rfl]
  rw [verifyLoop_append_ok (x :: rest) tail x.prev_hash hlink1 hhash1]
  rw [lastEntryHash_cons]

/-- `latestHashLocked` is the final hash of the agent's ascending chain,
seen from the genesis constant. -/
theorem latestHashLocked_eq (store : List AuditEntry) (agentId : String) :
    latestHashLocked store agentId = lastEntryHash genesisHash (agentLogsAsc store agentId) := by
  unfold latestHashLocked lastEntryHash
  rfl

/-- With no time window, `verify_chain` verifies exactly the agent's
ascending chain. -/
theorem verifyChain_none_none (store : List AuditEntry) (agentId : String) :
    verifyChain store agentId none none = verifyChainList (agentLogsAsc store agentId) := by
  unfold verifyChain
  have h : ∀ (l : List AuditEntry),
      (l.filter fun e =>
        (match (none : Option Nat) with | none => true | some t => t ≤ e.timestamp) &&
        (match (none : Option Nat) with | none => true | some t => e.timestamp ≤ t)) = l := by
    intro l
    induction l with
    | nil => rfl
    | cons x xs ih => simp [List.filter_cons, ih]
  rw [h]

/-- One `create_log` call preserves, for every agent, the ascending
sortedness of that agent's rows and the well-formedness of that agent's
chain, provided all stored rows predate the call. -/
theorem createLog_storeOk (store : List AuditEntry) (agentId : String)
    (request : CreateAuditLogRequest) (logId : String) (now : Nat)
    (hok : ∀ agent, List.Pairwise (fun a b : AuditEntry => a.timestamp ≤ b.timestamp)
        (store.filter fun e => e.agent_id == agent) ∧
      chainOk (store.filter fun e => e.agent_id == agent) = true)
    (hfresh : ∀ x ∈ store, x.timestamp < now) :
    ∀ agent, List.Pairwise (fun a b : AuditEntry => a.timestamp ≤ b.timestamp)
        (((createLog store agentId request logId now).2).filter fun e => e.agent_id == agent) ∧
      chainOk (((createLog store agentId request logId now).2).filter
        fun e => e.agent_id == agent) = true := by
  intro agent
  obtain ⟨hsorted, hchain⟩ := hok agent
  have hsortAll : agentLogsAsc store agent = store.filter fun e => e.agent_id == agent :=
    List.Sorted.insertionSort_eq (hok agent).1
  unfold createLog
  simp only [List.filter_append]
  by_cases hA : (agentId == agent) = true
  · simp only [List.filter_cons, List.filter_nil, hA, if_pos]
    constructor
    · rw [List.pairwise_append]
      refine ⟨hsorted, List.pairwise_singleton _ _, ?_⟩
      intro a ha b hb
      rw [List.mem_singleton] at hb
      subst hb
      exact le_of_lt (hfresh a (List.mem_of_mem_filter ha))
    · apply chainOk_append_one _ _ hchain
      · exact beq_self_eq_true _
      · show latestHashLocked store agentId = _
        rw [latestHashLocked_eq]
        have : agentLogsAsc store agentId = agentLogsAsc store agent := by
          rw [beq_iff_eq.mp hA]
        rw [this, hsortAll]
  · have hA' : (agentId == agent) = false := by simpa using hA
    simp only [List.filter_cons, List.filter_nil, hA', Bool.false_eq_true, if_false,
      List.append_nil]
    exact ⟨hsorted, hchain⟩

/-- Folding `create_log` calls with strictly increasing server instants
over a store keeps every agent's rows sorted and every agent's chain well
formed. -/
theorem foldl_createLog_ok (ops : List AuditOp) (store : List AuditEntry)
    (hok : ∀ agent, List.Pairwise (fun a b : AuditEntry => a.timestamp ≤ b.timestamp)
        (store.filter fun e => e.agent_id == agent) ∧
      chainOk (store.filter fun e => e.agent_id == agent) = true)
    (hfresh : ∀ x ∈ store, ∀ op ∈ ops, x.timestamp < op.now)
    (hinc : List.Pairwise (fun o1 o2 : AuditOp => o1.now < o2.now) ops) :
    ∀ agent, List.Pairwise (fun a b : AuditEntry => a.timestamp ≤ b.timestamp)
        ((ops.foldl (fun st op => (createLog st op.agent_id op.request op.log_id op.now).2)
          store).filter fun e => e.agent_id == agent) ∧
      chainOk ((ops.foldl (fun st op => (createLog st op.agent_id op.request op.log_id op.now).2)
        store).filter fun e => e.agent_id == agent) = true := by
  induction ops generalizing store with
  | nil => exact hok
  | cons op rest ih =>
    rw [List.pairwise_cons] at hinc
    simp only [List.foldl_cons]
    apply ih
    · exact createLog_storeOk store op.agent_id op.request op.log_id op.now hok
        (fun x hx => hfresh x hx op (List.mem_cons_self _ _))
    · intro x hx op' hop'
      unfold createLog at hx
      rw [List.mem_append] at hx
      rcases hx with hx | hx
      · exact hfresh x hx op' (List.mem_cons_of_mem _ hop')
      · rw [List.mem_singleton] at hx
        subst hx
        exact hinc.1 op' hop'
    · exact hinc.2

/-! ## Claim theorems -/

/-- C5: `compute_content_hash` is invariant under permutation of its
set-valued inputs: equal parties, purpose, retention and expiry together
with `data_types` and `actions` lists that are permutations of each other
yield the identical hex digest, because both lists are sorted before
canonical serialization. -/
theorem claim_C5 (partyA partyB purpose : String) (retentionDays : Option Int)
    (expiresAt : Option Nat) (dt1 dt2 ac1 ac2 : List String)
    (hdt : dt1.Perm dt2) (hac : ac1.Perm ac2) :
    computeContentHash partyA partyB dt1 ac1 purpose retentionDays expiresAt =
      computeContentHash partyA partyB dt2 ac2 purpose retentionDays expiresAt := by
  unfold computeContentHash
  rw [pySorted_perm_congr hdt, pySorted_perm_congr hac]

/-- Witness for C5 at concrete reordered scope lists. -/
theorem claim_C5_witness :
    (["y", "x"].Perm ["x", "y"] ∧ ["q", "p"].Perm ["p", "q"]) ∧
    computeContentHash "a" "b" ["y", "x"] ["q", "p"] "purp" (some 30) none =
      computeContentHash "a" "b" ["x", "y"] ["p", "q"] "purp" (some 30) none :=
  ⟨⟨by decide, by decide⟩,
    claim_C5 "a" "b" "purp" (some 30) none _ _ _ _ (by decide) (by decide)⟩

/-- C6: `verify_signature` is a total Boolean function that returns `true`
exactly when the key loads, is an Ed25519 key, the signature decodes to
exactly 64 bytes, and the cryptographic verification over the UTF-8 bytes
of the content hash succeeds; every failure mode — a raised decoding
error, a wrong key type, a wrong signature length, or a cryptographic
mismatch — collapses to the same value `false`, surfacing no distinction
to the caller. -/
theorem claim_C6 (Key : Type) (prims : CryptoPrimitives Key)
    (publicKeyPem signatureB64 contentHash : String) :
    verifySignature prims publicKeyPem signatureB64 contentHash = true ↔
      ∃ key signatureBytes,
        prims.loadPemPublicKey publicKeyPem = .ok key ∧
        prims.isEd25519 key = true ∧
        prims.b64decode signatureB64 = .ok signatureBytes ∧
        signatureBytes.length = 64 ∧
        prims.ed25519Verify key signatureBytes (utf8 contentHash) = .ok () := by
  unfold verifySignature
  cases hl : prims.loadPemPublicKey publicKeyPem with
  | error e => simp [hl]
  | ok key =>
    by_cases he : prims.isEd25519 key
    · simp only [he, Bool.not_true, Bool.false_eq_true, if_false]
      cases hb : prims.b64decode signatureB64 with
      | error e => simp [hb, he]
      | ok bytes =>
        by_cases hlen : bytes.length = 64
        · simp only [hlen, ne_eq, not_true_eq_false, if_false]
          cases hv : prims.ed25519Verify key bytes (utf8 contentHash) with
          | error e => simp [hv, he, hlen]
          | ok u => simp [hv, he, hlen]
        · simp only [ne_eq, hlen, not_false_eq_true, if_true]
          constructor
          · intro h; exact absurd h (by simp)
          · rintro ⟨k, bs, hk, _, hbs, hbslen, _⟩
            cases hbs
            exact absurd hbslen hlen
    · simp only [he, Bool.not_false, if_true]
      constructor
      · intro h; exact absurd h (by simp)
      · rintro ⟨k, bs, hk, hed, _⟩
        cases hk
        exact absurd hed he

/-- C7 (as stated): `create_pin` fails with the contract-not-active error
when no active, unexpired contract with the requested id exists; otherwise
with the not-a-party error when the issuing agent is neither `party_a` nor
`party_b`; otherwise with the scope-exceeded error unless the requested
data types and actions are subsets of the contract's; and every PIN it
does issue carries the requested scope, which is a subset of its active
parent contract's scope at issuance. -/
theorem claim_C7 (settings : Settings) (contracts : List Contract) (agentId : String)
    (request : CreatePinRequest) (pinId token : String) (now : Nat) :
    (getActiveContract contracts request.contract_id now = none →
      createPin settings contracts agentId request pinId token now =
        .error .contractNotActive) ∧
    (∀ c, getActiveContract contracts request.contract_id now = some c →
      agentId ≠ c.party_a → agentId ≠ c.party_b →
      createPin settings contracts agentId request pinId token now =
        .error .notContractParty) ∧
    (∀ c, getActiveContract contracts request.contract_id now = some c →
      (agentId = c.party_a ∨ agentId = c.party_b) →
      validateScopeAgainstContract request.scope c = false →
      createPin settings contracts agentId request pinId token now =
        .error .scopeExceedsContract) ∧
    (∀ pin, createPin settings contracts agentId request pinId token now = .ok pin →
      pin.scope = request.scope ∧ pin.contract_id = request.contract_id ∧
      ∃ c, getActiveContract contracts pin.contract_id now = some c ∧
        validateScopeAgainstContract pin.scope c = true) := by
  refine ⟨?_, ?_, ?_, ?_⟩
  · intro hnone
    unfold createPin
    rw [hnone]
  · intro c hc ha hb
    unfold createPin
    rw [hc]
    simp [ha, hb]
  · intro c hc hparty hscope
    unfold createPin
    rw [hc]
    have hp : ¬(agentId ≠ c.party_a ∧ agentId ≠ c.party_b) := by
      rcases hparty with h | h
      · exact fun hcon => hcon.1 h
      · exact fun hcon => hcon.2 h
    simp [hp, hscope]
  · intro pin hok
    unfold createPin at hok
    cases hc : getActiveContract contracts request.contract_id now with
    | none => rw [hc] at hok; cases hok
    | some c =>
      rw [hc] at hok
      by_cases hp : agentId ≠ c.party_a ∧ agentId ≠ c.party_b
      · simp [hp] at hok
      · simp only [hp, if_false] at hok
        by_cases hs : validateScopeAgainstContract request.scope c
        · simp only [hs, Bool.not_true, Bool.false_eq_true, if_false] at hok
          cases hok
          exact ⟨rfl, rfl, c, hc, hs⟩
        · simp [hs] at hok

/-- Witness for C7: concrete runs hitting, in turn, the inactive-contract
error, the non-party error, the superset-scope rejection, and a
successful issuance whose scope is inside the contract's. -/
theorem claim_C7_witness :
    (createPin defaultSettings [] "agent:scheduler" reqA "p1" "t1" 100 =
      .error .contractNotActive) ∧
    (createPin defaultSettings [contractW] "agent:stranger" reqA "p1" "t1" 100 =
      .error .notContractParty) ∧
    (createPin defaultSettings [contractW] "agent:scheduler" reqBig "p1" "t1" 100 =
      .error .scopeExceedsContract) ∧
    (pinA.scope = reqA.scope ∧ pinA.contract_id = reqA.contract_id ∧
      ∃ c, getActiveContract [contractW] pinA.contract_id 100 = some c ∧
        validateScopeAgainstContract pinA.scope c = true) :=
  ⟨(claim_C7 defaultSettings [] "agent:scheduler" reqA "p1" "t1" 100).1 (by rfl),
   (claim_C7 defaultSettings [contractW] "agent:stranger" reqA "p1" "t1" 100).2.1
     contractW (by rfl) (by decide) (by decide),
   (claim_C7 defaultSettings [contractW] "agent:scheduler" reqBig "p1" "t1" 100).2.2.1
     contractW (by rfl) (Or.inr (by rfl)) (by decide),
   (claim_C7 defaultSettings [contractW] "agent:scheduler" reqA "p1" "t1" 100).2.2.2
     pinA (by rfl)⟩

/-- C8 (amended): for every successfully issued PIN,
`expires_at = issued_at + settings.pin_ttl_seconds`, a fixed TTL read
from the service configuration, whose default is 60 seconds; the
`create_pin` request itself carries no TTL. -/
theorem claim_C8 :
    (∀ (settings : Settings) (contracts : List Contract) (agentId : String)
       (request : CreatePinRequest) (pinId token : String) (now : Nat) (pin : Pin),
       createPin settings contracts agentId request pinId token now = .ok pin →
       pin.issued_at = now ∧ pin.expires_at = now + settings.pin_ttl_seconds) ∧
    defaultSettings.pin_ttl_seconds = 60 := by
  refine ⟨?_, rfl⟩
  intro settings contracts agentId request pinId token now pin hok
  unfold createPin at hok
  cases hc : getActiveContract contracts request.contract_id now with
  | none => rw [hc] at hok; cases hok
  | some c =>
    rw [hc] at hok
    by_cases hp : agentId ≠ c.party_a ∧ agentId ≠ c.party_b
    · simp [hp] at hok
    · simp only [hp, if_false] at hok
      by_cases hs : validateScopeAgainstContract request.scope c
      · simp only [hs, Bool.not_true, Bool.false_eq_true, if_false] at hok
        cases hok
        exact ⟨rfl, rfl⟩
      · simp [hs] at hok

/-- Counterexample for C8 as stated: the TTL is not configurable per
`create_pin` request — two requests differing in every request field
receive the same 60-second TTL under the default settings, and the TTL
changes only when the service-level setting does. -/
theorem claim_C8_counterexample :
    pinExpiryOffset (createPin defaultSettings [contractW] "agent:scheduler" reqA "p1" "t1" 100)
      = some 60 ∧
    pinExpiryOffset (createPin defaultSettings [contractW] "agent:scheduler" reqB "p2" "t2" 100)
      = some 60 ∧
    reqA ≠ reqB ∧
    pinExpiryOffset (createPin settings17 [contractW] "agent:scheduler" reqA "p1" "t1" 100)
      = some 17 := by
  refine ⟨by decide, by decide, by decide, by decide⟩

/-- Witness for C8 at a concrete issuance. -/
theorem claim_C8_witness :
    (pinA.issued_at = 100 ∧ pinA.expires_at = 100 + defaultSettings.pin_ttl_seconds) ∧
    defaultSettings.pin_ttl_seconds = 60 :=
  ⟨claim_C8.1 defaultSettings [contractW] "agent:scheduler" reqA "p1" "t1" 100 pinA (by rfl),
   claim_C8.2⟩

/-- C4: `sign_contract` coincides with the specification's cascade — for
stores whose contracts have distinct parties, as the database constraint
guarantees — checking, in order: NotFound for an unknown id, InvalidState
unless PROPOSED, Forbidden unless the signer is a party, Conflict when
that party's signature slot is already filled (before any look at the new
signature), InvalidSignature unless `verify_signature` accepts it against
the stored content hash; on success it stores the signature in the
signer's slot and transitions to ACTIVE stamping `signed_at` exactly when
both slots are then filled. -/
theorem claim_C4 (Key : Type) (prims : CryptoPrimitives Key) (store : List Contract)
    (contractId agentId signature publicKeyPem : String) (now : Nat)
    (hparties : ∀ c ∈ store, c.party_a ≠ c.party_b) :
    signContract prims store contractId agentId signature publicKeyPem now =
      signContractSpec prims store contractId agentId signature publicKeyPem now := by
  unfold signContract signContractSpec
  cases hg : getContract store contractId with
  | none => rfl
  | some c =>
    have hab : c.party_a ≠ c.party_b := hparties c (List.mem_of_find?_eq_some hg)
    have hba : c.party_b ≠ c.party_a := Ne.symm hab
    by_cases hs : c.status = ContractStatus.proposed
    · by_cases ha : agentId = c.party_a
      · have hb : agentId ≠ c.party_b := fun h => hab (ha.symm.trans h)
        simp [hs, ha, hb, hab, hba]
      · by_cases hb : agentId = c.party_b
        · simp [hs, ha, hb, hab, hba]
        · simp [hs, ha, hb]
    · simp [hs]

/-- Witness for C4: a full successful signing run on a bilateral
proposed contract. -/
theorem claim_C4_witness :
    signContract toyPrims [contractP] "c-1" "system:acme" "sig" "pem" 9 =
      signContractSpec toyPrims [contractP] "c-1" "system:acme" "sig" "pem" 9 :=
  claim_C4 Unit toyPrims [contractP] "c-1" "system:acme" "sig" "pem" 9 (by decide)

/-- C9: whenever `validate_pin` finds the PIN (it exists and is not
revoked) and the validation instant is strictly past `expires_at`, the
call returns the Expired error and leaves the store untouched — with no
condition on the presented credential, the requested scope, or the parent
contract, because the expiry check precedes the signature, scope and
contract checks. -/
theorem claim_C9 (settings : Settings) (contracts : List Contract) (pins : List Pin)
    (pinId : String) (request : ValidatePinRequest) (now : Nat) (pin : Pin)
    (hf : findPin pins pinId = some pin) (hexp : now > pin.expires_at) :
    validatePin settings contracts pins pinId request now =
      (pinErrorResponse "PIN_EXPIRED" "PIN has expired", pins) := by
  unfold validatePin
  rw [hf]
  simp [hexp]

/-- Witness for C9: a correct credential with a matching scope and an
ACTIVE parent contract, presented after expiry, still fails Expired. -/
theorem claim_C9_witness :
    findPin [pinW] "pin-1" = some pinW ∧
    validatePin defaultSettings [contractW] [pinW] "pin-1" vreqW 1000 =
      (pinErrorResponse "PIN_EXPIRED" "PIN has expired", [pinW]) :=
  ⟨rfl, claim_C9 defaultSettings [contractW] [pinW] "pin-1" vreqW 1000 pinW rfl (by decide)⟩

/-- C10 (frame): `validate_pin` changes the stored PINs only when it
returns valid for a single-use PIN, and then only by setting that PIN's
`used_at` to the validation instant; every error outcome and every
successful validation of a reusable PIN leaves the store unchanged, so a
reusable PIN validates repeatedly with the same outcome. -/
theorem claim_C10 (settings : Settings) (contracts : List Contract) (pins : List Pin)
    (pinId : String) (request : ValidatePinRequest) (now : Nat) :
    (((validatePin settings contracts pins pinId request now).1).valid = false →
      (validatePin settings contracts pins pinId request now).2 = pins) ∧
    (((validatePin settings contracts pins pinId request now).1).valid = true →
      ∀ pin, findPin pins pinId = some pin →
        (pin.single_use = false →
          (validatePin settings contracts pins pinId request now).2 = pins ∧
          validatePin settings contracts
              ((validatePin settings contracts pins pinId request now).2) pinId request now =
            validatePin settings contracts pins pinId request now) ∧
        (pin.single_use = true →
          (validatePin settings contracts pins pinId request now).2 =
            updateFirst (fun p => p.pin_id == pinId && !p.revoked)
              (fun p => { p with used_at := some now }) pins)) := by
  rcases validatePin_cases settings contracts pins pinId request now with
    ⟨pin0, hf0, hv0, _, _, _, hstore⟩ | ⟨hv, hstore⟩
  · constructor
    · intro h
      rw [hv0] at h
      cases h
    · intro _ pin hf
      rw [hf0] at hf
      injection hf with hpin
      subst hpin
      constructor
      · intro hsu
        have h2 : (validatePin settings contracts pins pinId request now).2 = pins := by
          rw [hstore, if_neg (by simp [hsu])]
        exact ⟨h2, by rw [h2]⟩
      · intro hsu
        rw [hstore, if_pos hsu]
  · constructor
    · intro _; exact hstore
    · intro h
      rw [hv] at h
      cases h

/-- Witness for C10: the error path and the reusable success path leave
the store unchanged; the single-use success path sets only `used_at`. -/
theorem claim_C10_witness :
    ((validatePin defaultSettings [contractW] [pinW] "pin-1" vreqW 1000).2 = [pinW]) ∧
    ((validatePin defaultSettings [contractW] [pin2W] "pin-2" vreq2W 10).2 = [pin2W] ∧
      validatePin defaultSettings [contractW]
          ((validatePin defaultSettings [contractW] [pin2W] "pin-2" vreq2W 10).2)
          "pin-2" vreq2W 10 =
        validatePin defaultSettings [contractW] [pin2W] "pin-2" vreq2W 10) ∧
    ((validatePin defaultSettings [contractW] [pinW] "pin-1" vreqW 10).2 =
      updateFirst (fun p => p.pin_id == "pin-1" && !p.revoked)
        (fun p => { p with used_at := some 10 }) [pinW]) :=
  ⟨(claim_C10 defaultSettings [contractW] [pinW] "pin-1" vreqW 1000).1 (by decide),
   ((claim_C10 defaultSettings [contractW] [pin2W] "pin-2" vreq2W 10).2 (by decide)
     pin2W rfl).1 rfl,
   ((claim_C10 defaultSettings [contractW] [pinW] "pin-1" vreqW 10).2 (by decide)
     pinW rfl).2 rfl⟩

/-- C1: once a `validate_pin` call on a single-use PIN has returned
valid, that validation has stamped `used_at`, an immediate re-validation
with the same credential and scope fails with AlreadyUsed, and no later
`validate_pin` call on that PIN — after any further sequence of
`validate_pin` calls whatsoever — ever returns valid again. -/
theorem claim_C1 (settings : Settings) (contracts : List Contract) (pins : List Pin)
    (pinId : String) (request : ValidatePinRequest) (now : Nat) (pin : Pin)
    (hf : findPin pins pinId = some pin) (hsu : pin.single_use = true)
    (hv : ((validatePin settings contracts pins pinId request now).1).valid = true) :
    (∃ pin', findPin ((validatePin settings contracts pins pinId request now).2) pinId
        = some pin' ∧ pin'.used_at = some now) ∧
    ((validatePin settings contracts
        ((validatePin settings contracts pins pinId request now).2) pinId request now).1 =
      pinErrorResponse "PIN_ALREADY_USED" "Single-use PIN has already been used") ∧
    (∀ (ops : List ValidateOp) (settings' : Settings) (contracts' : List Contract)
       (request' : ValidatePinRequest) (now' : Nat),
       ((validatePin settings' contracts'
          (runValidations ops ((validatePin settings contracts pins pinId request now).2))
          pinId request' now').1).valid = false) := by
  rcases validatePin_cases settings contracts pins pinId request now with
    ⟨pin0, hf0, _, hexp, _, _, hstore⟩ | ⟨hvf, _⟩
  · have heq : pin0 = pin := by rw [hf0] at hf; exact Option.some_inj.mp hf
    rw [heq] at hf0 hexp hstore
    have hstore' : (validatePin settings contracts pins pinId request now).2 =
        updateFirst (fun p => p.pin_id == pinId && !p.revoked)
          (fun p => { p with used_at := some now }) pins := by
      rw [hstore, if_pos hsu]
    have hfind' : findPin ((validatePin settings contracts pins pinId request now).2) pinId =
        some { pin with used_at := some now } := by
      rw [hstore', findPin_updateFirst_used, hf0]
      rfl
    have hcons : pinConsumed ((validatePin settings contracts pins pinId request now).2) pinId := by
      intro p hp
      rw [hfind'] at hp
      injection hp with hp
      rw [← hp]
      rfl
    refine ⟨⟨{ pin with used_at := some now }, hfind', rfl⟩, ?_, ?_⟩
    · exact validatePin_found_alreadyUsed _ _ _ _ _ _ _ hfind' hexp rfl
    · intro ops settings' contracts' request' now'
      exact pinConsumed_invalid _ _ _ _ _ _ (pinConsumed_run _ _ _ hcons)
  · rw [hvf] at hv
    cases hv

/-- Witness for C1: the concrete single-use scenario — first validation
valid, `used_at` stamped, immediate second validation AlreadyUsed. -/
theorem claim_C1_witness :
    (∃ pin', findPin ((validatePin defaultSettings [contractW] [pinW] "pin-1" vreqW 10).2)
        "pin-1" = some pin' ∧ pin'.used_at = some 10) ∧
    ((validatePin defaultSettings [contractW]
        ((validatePin defaultSettings [contractW] [pinW] "pin-1" vreqW 10).2)
        "pin-1" vreqW 10).1 =
      pinErrorResponse "PIN_ALREADY_USED" "Single-use PIN has already been used") :=
  have h := claim_C1 defaultSettings [contractW] [pinW] "pin-1" vreqW 10 pinW rfl rfl
    (by decide)
  ⟨h.1, h.2.1⟩

/-- C2 (amended): the loaded-chain verification returns clean success
exactly when every entry's stored hash recomputes from its fields and
every entry after the first carries its predecessor's `entry_hash` as
`prev_hash` — the first entry's `prev_hash` is accepted as is, genesis or
not, to allow verifying a time window that continues an earlier chain
(an empty chain is vacuously valid); every store built solely by
`create_log` calls with strictly increasing server instants verifies
clean for every agent; and on the first failure verification stops at the
first entry failing a check and reports which of the two checks failed:
after a well-formed prefix, a broken `prev_hash` link yields exactly the
chain-broken message naming that entry and the expected hash, and an
entry whose link holds (vacuously, for a first entry) but whose stored
hash does not recompute yields exactly the entry-tampered message naming
that entry and the recomputed hash. -/
theorem claim_C2 :
    (∀ logs, verifyChainList logs = (true, none) ↔ chainOk logs = true) ∧
    (∀ (ops : List AuditOp) (agent : String),
      List.Pairwise (fun o1 o2 : AuditOp => o1.now < o2.now) ops →
      verifyChain (buildAuditStore ops) agent none none = (true, none)) ∧
    (∀ (x : AuditEntry) (rest l₂ : List AuditEntry) (e : AuditEntry),
      chainOk (x :: rest) = true →
      e.prev_hash ≠ lastEntryHash x.entry_hash rest →
      verifyChainList ((x :: rest) ++ e :: l₂) =
        (false, some (chainBrokenMsg e (lastEntryHash x.entry_hash rest)))) ∧
    (∀ (l₁ l₂ : List AuditEntry) (e : AuditEntry),
      chainOk l₁ = true →
      (∀ x rest, l₁ = x :: rest → e.prev_hash = lastEntryHash x.entry_hash rest) →
      e.entry_hash ≠ computeEntryHash e →
      verifyChainList (l₁ ++ e :: l₂) =
        (false, some (entryTamperedMsg e (computeEntryHash e)))) := by
  refine ⟨verifyChainList_eq_true_iff, ?_, ?_, ?_⟩
  · intro ops agent hinc
    have hbase : ∀ a, List.Pairwise (fun x y : AuditEntry => x.timestamp ≤ y.timestamp)
        (([] : List AuditEntry).filter fun e => e.agent_id == a) ∧
        chainOk (([] : List AuditEntry).filter fun e => e.agent_id == a) = true := by
      intro a
      exact ⟨List.Pairwise.nil, rfl⟩
    have hall := foldl_createLog_ok ops [] hbase (by intro x hx; cases hx) hinc agent
    rw [verifyChain_none_none]
    have hsort : agentLogsAsc (buildAuditStore ops) agent =
        (buildAuditStore ops).filter fun e => e.agent_id == agent :=
      List.Sorted.insertionSort_eq hall.1
    rw [hsort, verifyChainList_eq_true_iff]
    exact hall.2
  · intro x rest l₂ e hok hne
    rw [verifyChainList_run_head x rest (e :: l₂) hok]
    simp only [verifyLoop]
    rw [if_pos hne]
  · intro l₁ l₂ e hok hlink hhash
    cases l₁ with
    | nil =>
      simp only [List.nil_append, verifyChainList]
      rw [verifyChainList_expected]
      simp only [verifyLoop]
      rw [if_neg (by simp), if_pos hhash]
    | cons x rest =>
      rw [verifyChainList_run_head x rest (e :: l₂) hok]
      simp only [verifyLoop]
      rw [if_neg (by simp [hlink x rest rfl]), if_pos hhash]

/-- Counterexample for C2 as stated: a single-entry chain whose first
`prev_hash` is 64 `f`s — not the genesis constant — and whose stored hash
recomputes correctly is reported valid, so validity does not require the
first entry's `prev_hash` to equal the genesis constant. -/
theorem claim_C2_counterexample :
    verifyChain [nonGenesisEntry] "agent:w" none none = (true, none) ∧
    nonGenesisEntry.prev_hash ≠ genesisHash :=
  ⟨by decide, by decide⟩

/-- Witness for C2: the characterization at the concrete appended chain,
a two-append store verifying clean, a broken link blamed on the exact
entry with the prev-hash message, and a tampered hash blamed on the exact
entry with the hash-mismatch message. -/
theorem claim_C2_witness :
    (verifyChainList [entryW] = (true, none) ↔ chainOk [entryW] = true) ∧
    verifyChain (buildAuditStore auditOpsW) "agent:scheduler" none none = (true, none) ∧
    verifyChainList [entryW, brokenEntry2W] =
      (false, some (chainBrokenMsg brokenEntry2W entryW.entry_hash)) ∧
    verifyChainList [tamperedEntryW] =
      (false, some (entryTamperedMsg tamperedEntryW (computeEntryHash tamperedEntryW))) :=
  ⟨claim_C2.1 [entryW],
   claim_C2.2.1 auditOpsW "agent:scheduler" (by decide),
   claim_C2.2.2.1 entryW [] [] brokenEntry2W (by decide) (by decide),
   claim_C2.2.2.2 [] [] tamperedEntryW rfl (by intro x rest h; cases h) (by decide)⟩

/-- C3 (amended): replacing one entry of a well-formed loaded chain by a
tampered copy at the same position makes verification fail and report
that entry (both failure messages embed the tampered entry's `log_id`),
provided the tampering is detectable: the tampered entry's stored hash no
longer recomputes from its fields (what a mutation of any hashed field
yields short of a SHA-256 collision), or a non-first entry's `prev_hash`
link is broken. Three mutations necessarily fall outside this statement,
each exhibited by the counterexample: mutating `agent_id` silently moves
the entry out of this agent's chain and verification stays valid;
mutating `timestamp` so the entry changes position in the
ascending-timestamp load makes verification fail but blame a different
entry; and mutating the persisted but unhashed `source_ip` or
`geo_location` columns is not detected at all. -/
theorem claim_C3 (l₁ l₂ : List AuditEntry) (e e' : AuditEntry)
    (hok : chainOk (l₁ ++ e :: l₂) = true)
    (hdet : e'.entry_hash ≠ computeEntryHash e' ∨ (l₁ ≠ [] ∧ e'.prev_hash ≠ e.prev_hash)) :
    (verifyChainList (l₁ ++ e' :: l₂)).1 = false ∧
    ∃ m, (verifyChainList (l₁ ++ e' :: l₂)).2 = some m ∧
      (m = entryTamperedMsg e' (computeEntryHash e') ∨ m = chainBrokenMsg e' e.prev_hash) := by
  cases l₁ with
  | nil =>
    rcases hdet with hdet | ⟨hne, _⟩
    · have hrun : verifyChainList (e' :: l₂) =
          (false, some (entryTamperedMsg e' (computeEntryHash e'))) := by
        simp only [verifyChainList]
        rw [verifyChainList_expected]
        simp only [verifyLoop]
        rw [if_neg (by simp), if_pos hdet]
      simp only [List.nil_append]
      rw [hrun]
      exact ⟨rfl, _, rfl, Or.inl rfl⟩
    · exact absurd rfl hne
  | cons x rest =>
    simp only [List.cons_append, chainOk, List.all_cons, List.all_append,
      Bool.and_eq_true] at hok
    obtain ⟨⟨hx, hallrest, halltail⟩, hlinked⟩ := hok
    rw [chainLinkedFrom_append] at hlinked
    simp only [Bool.and_eq_true] at hlinked
    obtain ⟨hlrest, hltail⟩ := hlinked
    simp only [chainLinkedFrom, Bool.and_eq_true] at hltail
    have hq : lastEntryHash x.entry_hash rest = e.prev_hash := (beq_iff_eq.mp hltail.1).symm
    have hlink1 : chainLinkedFrom x.prev_hash (x :: rest) = true := by
      simp [chainLinkedFrom, hlrest]
    have hhash1 : ((x :: rest).all fun y => y.entry_hash == computeEntryHash y) = true := by
      simp [List.all_cons, hx, hallrest]
    have hrun : verifyChainList ((x :: rest) ++ e' :: l₂) = verifyLoop e.prev_hash (e' :: l₂) := by
      simp only [List.cons_append, verifyChainList]
      rw [verifyChainList_expected]
      rw [show x :: (rest ++ e' :: l₂) = (x :: rest) ++ (e' :: l₂) from rfl]
      rw [verifyLoop_append_ok (x :: rest) (e' :: l₂) x.prev_hash hlink1 hhash1]
      rw [lastEntryHash_cons, hq]
    by_cases hp : e'.prev_hash = e.prev_hash
    · rcases hdet with hdet | ⟨_, hne⟩
      · have hrun2 : verifyLoop e.prev_hash (e' :: l₂) =
            (false, some (entryTamperedMsg e' (computeEntryHash e'))) := by
          simp only [verifyLoop]
          rw [if_neg (by simp [hp]), if_pos hdet]
        rw [hrun, hrun2]
        exact ⟨rfl, _, rfl, Or.inl rfl⟩
      · exact absurd hp hne
    · have hrun2 : verifyLoop e.prev_hash (e' :: l₂) =
          (false, some (chainBrokenMsg e' e.prev_hash)) := by
        simp only [verifyLoop]
        rw [if_pos hp]
      rw [hrun, hrun2]
      exact ⟨rfl, _, rfl, Or.inr rfl⟩

/-- Counterexample for C3 as stated, in three parts, one per mutation the
amendment must exclude. (a) Mutating the single stored field `agent_id`
of an appended entry — hashes untouched — makes the entry vanish from its
author's chain and `verify_chain` reports the chain valid. (b) Mutating
the single persisted column `source_ip`, which `_compute_entry_hash`
leaves out of the hashed content, is not detected at all: `verify_chain`
reports the chain valid. (c) In a valid three-append chain, mutating only
the `timestamp` of the middle entry `log-2` past the others reorders the
ascending-timestamp load, and `verify_chain` returns invalid but blames
the untampered entry `log-3` — its chain-broken message names `log-3`,
not the tampered entry. -/
theorem claim_C3_counterexample :
    (chainOk [entryW] = true ∧
      movedEntryW = { entryW with agent_id := "agent:other" } ∧
      movedEntryW ≠ entryW ∧
      verifyChain [movedEntryW] "agent:scheduler" none none = (true, none)) ∧
    (sourceIpTamperedW = { entryW with source_ip := some "10.0.0.1" } ∧
      sourceIpTamperedW ≠ entryW ∧
      verifyChain [sourceIpTamperedW] "agent:scheduler" none none = (true, none)) ∧
    (verifyChain auditStore3 "agent:scheduler" none none = (true, none) ∧
      timeShiftedStore3 =
        auditStore3.map (fun e => if e.log_id = "log-2" then { e with timestamp := 100 } else e) ∧
      ({ entry2W with timestamp := 100 } : AuditEntry).entry_hash ≠
        computeEntryHash { entry2W with timestamp := 100 } ∧
      (verifyChain timeShiftedStore3 "agent:scheduler" none none).1 = false ∧
      (verifyChain timeShiftedStore3 "agent:scheduler" none none).2 =
        some (chainBrokenMsg entry3W entryW.entry_hash) ∧
      entry3W.log_id = "log-3" ∧ entry2W.log_id = "log-2") :=
  ⟨⟨by decide, rfl, by decide, by decide⟩,
   ⟨rfl, by decide, by decide⟩,
   ⟨by decide, rfl, by decide, by decide, by decide, rfl, rfl⟩⟩

/-- Witness for C3: tampering the `source` field of a concrete appended
entry is detected and attributed to that entry. -/
theorem claim_C3_witness :
    chainOk [entryW] = true ∧
    tamperedEntryW.entry_hash ≠ computeEntryHash tamperedEntryW ∧
    (verifyChainList [tamperedEntryW]).1 = false ∧
    ∃ m, (verifyChainList [tamperedEntryW]).2 = some m ∧
      (m = entryTamperedMsg tamperedEntryW (computeEntryHash tamperedEntryW) ∨
        m = chainBrokenMsg tamperedEntryW entryW.prev_hash) := by
  have hok : chainOk [entryW] = true := by decide
  have hdet : tamperedEntryW.entry_hash ≠ computeEntryHash tamperedEntryW := by decide
  have h := claim_C3 [] [] entryW tamperedEntryW hok (Or.inl hdet)
  exact ⟨hok, hdet, h.1, h.2⟩

end C1v
